import Mathlib

/-!
Verification of the inventory-constrained reservation engine of the
travel-booking backend (FastAPI + SQLAlchemy).  The definitions below are a
shallow embedding of the route handlers in app/routes/customer.py,
app/routes/customer_itineraries.py and app/routes/driver.py, translated
statement by statement.  Datetimes are modelled as integers measured in days
(the booking loops step by timedelta(days=1)); the 24-hour cancellation window
is therefore the constant 1.  Database tables are lists in insertion order;
SQLAlchemy first() is List.find?, Query.delete() is List.filter, mutation of a
fetched row is an update of the first matching element, and raising an
HTTPException before commit leaves the database unchanged, which the result
type reflects by carrying no state on errors.
-/

namespace TravelBackend

/-- Room row (app/models.py): a room type of a hotel with totalNumber
identical physical units. -/
structure Room where
  id : Nat
  hotelId : Nat
  roomCapacity : Nat
  totalNumber : Nat
deriving DecidableEq

/-- RoomBooking row (app/models.py): a committed booking of one unit of a
room type over the half-open day range [startDate, endDate). -/
structure RoomBooking where
  id : Nat
  customerId : Nat
  roomId : Nat
  startDate : Int
  endDate : Int
  numberOfPersons : Nat
deriving DecidableEq

/-- RoomItem row (fields as used by the routes: id, itineraryId, roomId,
startDate, endDate, roomBookingId): a planned room stay inside an itinerary,
optionally linked to a committed RoomBooking. -/
structure RoomItem where
  id : Nat
  itineraryId : Nat
  roomId : Nat
  startDate : Int
  endDate : Int
  roomBookingId : Option Nat
deriving DecidableEq

/-- Itinerary row: owned by a customer. -/
structure Itinerary where
  id : Nat
  customerId : Nat
deriving DecidableEq

/-- ScheduleItem row: a non-room itinerary entry. -/
structure ScheduleItem where
  id : Nat
  itineraryId : Nat
deriving DecidableEq

/-- Customer row: customer profile attached to a user account. -/
structure Customer where
  id : Nat
  userId : Nat
deriving DecidableEq

/-- Driver row: driver profile attached to a user account. -/
structure Driver where
  id : Nat
  userId : Nat
deriving DecidableEq

/-- Status of a ride booking (pending, confirmed, completed, cancelled). -/
inductive RideStatus where
  | pending
  | confirmed
  | completed
  | cancelled
deriving DecidableEq

/-- RideBooking row as used by the routes: transport request of a customer,
optionally attached to an itinerary, optionally assigned to a driver. -/
structure RideBooking where
  id : Nat
  customerId : Nat
  itineraryId : Option Nat
  driverId : Option Nat
  status : RideStatus
deriving DecidableEq

/-- The database state: one list per table, in insertion order, plus the
autoincrement counters for the two tables the modelled routes insert into. -/
structure DB where
  rooms : List Room
  bookings : List RoomBooking
  roomItems : List RoomItem
  itineraries : List Itinerary
  scheduleItems : List ScheduleItem
  customers : List Customer
  drivers : List Driver
  rides : List RideBooking
  nextBookingId : Nat
  nextRideId : Nat
deriving DecidableEq

/-- Error outcomes of the handlers, abstracting the HTTP status plus detail
string pairs raised by the routes. -/
inductive ApiErr where
  | notFound
  | forbidden
  | alreadyBooked
  | notBooked
  | personsExceedsCapacity
  | capacity (dates : List Int)
  | conflictItinerary
  | completedBooking
  | cancelWindow
  | alreadyClaimed
  | internalErr
deriving DecidableEq

/-- Result of a handler: the new database state on success, or an error, in
which case the transaction was never committed and the state is unchanged. -/
inductive OpResult where
  | ok (db : DB)
  | err (e : ApiErr)
deriving DecidableEq

/-- The days iterated by the availability loop: current = s; while current
is below e: yield current; current = current + one day. -/
def dayList (s e : Int) : List Int :=
  (List.range (e - s).toNat).map (fun (k : Nat) => s + (k : Int))

/-- Overlap filter of the availability queries:
startDate below the requested end and endDate above the requested start. -/
def overlaps (b : RoomBooking) (s e : Int) : Bool :=
  decide (b.startDate < e ∧ s < b.endDate)

/-- Day-coverage test of the counting loop:
booking.startDate at most the day, day strictly below booking.endDate. -/
def coversDay (b : RoomBooking) (d : Int) : Bool :=
  decide (b.startDate ≤ d ∧ d < b.endDate)

/-- Whether a room row with the given id exists (the join condition of the
availability query in book_room). -/
def roomExists (db : DB) (rid : Nat) : Bool :=
  db.rooms.any (fun r => r.id == rid)

/-- Update the first element satisfying the predicate, leaving the rest
unchanged: the effect of mutating a row fetched with first(). -/
def updateFirst (p : α → Bool) (f : α → α) : List α → List α
  | [] => []
  | a :: as => if p a then f a :: as else a :: updateFirst p f as

/-- Unavailable dates computed by book_room_by_room_id: bookings of the same
room overlapping the range, then each day whose cover count reaches
totalNumber. -/
def unavailableDatesById (db : DB) (room : Room) (s e : Int) : List Int :=
  let existing := db.bookings.filter (fun b => b.roomId == room.id && overlaps b s e)
  (dayList s e).filter (fun d => decide (room.totalNumber ≤ existing.countP (fun b => coversDay b d)))

/-- Unavailable dates computed by book_room: the query joins the rooms table
but applies no room filter, so bookings of every existing room overlapping the
range are counted against the target room's totalNumber. -/
def unavailableDatesJoin (db : DB) (tot : Nat) (s e : Int) : List Int :=
  let existing := db.bookings.filter (fun b => roomExists db b.roomId && overlaps b s e)
  (dayList s e).filter (fun d => decide (tot ≤ existing.countP (fun b => coversDay b d)))

/-- book_room_by_room_id (customer.py): look up the room, reject when the
party exceeds roomCapacity, collect unavailable dates, and either report them
or insert the new booking. -/
def book_room_by_room_id (db : DB) (room_id : Nat) (s e : Int) (persons customer_id : Nat) : OpResult :=
  match db.rooms.find? (fun r => r.id == room_id) with
  | none => .err .notFound
  | some room =>
    if room.roomCapacity < persons then .err .personsExceedsCapacity
    else
      match unavailableDatesById db room s e with
      | [] => .ok { db with
          bookings := db.bookings ++ [⟨db.nextBookingId, customer_id, room_id, s, e, persons⟩],
          nextBookingId := db.nextBookingId + 1 }
      | ds => .err (.capacity ds)

/-- book_room (customer.py): book the room of an itinerary room item.  Checks
the item exists, the itinerary belongs to the customer, the item is not yet
booked, runs the (join-based) availability computation, then inserts the
booking and links its id onto the room item in the same transaction.  The
room lookup has no null check in the source (an attribute error would be a
500 before any write), and the commented-out roomCapacity check is omitted as
in the source. -/
def book_room (db : DB) (room_item_id persons customer_id : Nat) : OpResult :=
  match db.roomItems.find? (fun it => it.id == room_item_id) with
  | none => .err .notFound
  | some item =>
    match db.itineraries.find? (fun i => i.id == item.itineraryId && i.customerId == customer_id) with
    | none => .err .forbidden
    | some _ =>
      match item.roomBookingId with
      | some _ => .err .alreadyBooked
      | none =>
        match db.rooms.find? (fun r => r.id == item.roomId) with
        | none => .err .internalErr
        | some room =>
          match unavailableDatesJoin db room.totalNumber item.startDate item.endDate with
          | [] => .ok { db with
              bookings := db.bookings ++ [⟨db.nextBookingId, customer_id, item.roomId, item.startDate, item.endDate, persons⟩],
              roomItems := updateFirst (fun it => it.id == room_item_id)
                (fun it => { it with roomBookingId := some db.nextBookingId }) db.roomItems,
              nextBookingId := db.nextBookingId + 1 }
          | ds => .err (.capacity ds)

/-- cancel_room_booking helper (customer.py): find the booking by id (404 if
absent), check ownership (403), null the roomBookingId of the first room item
referencing it, and delete the booking, all in one transaction. -/
def cancel_room_booking (db : DB) (booking_id customer_id : Nat) : OpResult :=
  match db.bookings.find? (fun b => b.id == booking_id) with
  | none => .err .notFound
  | some b =>
    if b.customerId ≠ customer_id then .err .forbidden
    else .ok { db with
      roomItems := updateFirst (fun it => it.roomBookingId == some booking_id)
        (fun it => { it with roomBookingId := none }) db.roomItems,
      bookings := db.bookings.eraseP (fun x => x.id == booking_id) }

/-- cancel_customer_booking endpoint (customer.py): resolve the customer from
the user id, find the booking by id and owner, reject when the stay already
ended (endDate before now) or when check-in is less than one day (24 hours)
away, otherwise delete the booking and unlink the first referencing room
item. -/
def cancel_customer_booking (db : DB) (booking_id user_id : Nat) (now : Int) : OpResult :=
  match db.customers.find? (fun c => c.userId == user_id) with
  | none => .err .notFound
  | some c =>
    match db.bookings.find? (fun b => b.id == booking_id && b.customerId == c.id) with
    | none => .err .notFound
    | some b =>
      if b.endDate < now then .err .completedBooking
      else if b.startDate - now < 1 then .err .cancelWindow
      else .ok { db with
        bookings := db.bookings.eraseP (fun x => x.id == booking_id),
        roomItems := updateFirst (fun it => it.roomBookingId == some booking_id)
          (fun it => { it with roomBookingId := none }) db.roomItems }

/-- update_room_dates (customer_itineraries.py): resolve the customer (an
absent profile is an attribute error before any write), check the itinerary
belongs to them, find the room item in that itinerary, and set whichever of
startDate and endDate the request supplies.  No check that the item is
uncommitted, and the linked booking is never touched. -/
def update_room_dates (db : DB) (itin_id item_id : Nat) (ns ne : Option Int) (user_id : Nat) : OpResult :=
  match db.customers.find? (fun c => c.userId == user_id) with
  | none => .err .internalErr
  | some c =>
    match db.itineraries.find? (fun i => i.id == itin_id && i.customerId == c.id) with
    | none => .err .notFound
    | some _ =>
      match db.roomItems.find? (fun it => it.id == item_id && it.itineraryId == itin_id) with
      | none => .err .notFound
      | some _ => .ok { db with
          roomItems := updateFirst (fun it => it.id == item_id && it.itineraryId == itin_id)
            (fun it => { it with startDate := ns.getD it.startDate, endDate := ne.getD it.endDate })
            db.roomItems }

/-- delete_itinerary (customer_itineraries.py): resolve the customer, find
the itinerary by id and owner, fetch THE FIRST ride booking linked to the
itinerary and reject when its status is completed or confirmed, otherwise
delete the itinerary's schedule items, room items and the itinerary itself. -/
def delete_itinerary (db : DB) (iid user_id : Nat) : OpResult :=
  match db.customers.find? (fun c => c.userId == user_id) with
  | none => .err .notFound
  | some c =>
    match db.itineraries.find? (fun i => i.id == iid && i.customerId == c.id) with
    | none => .err .notFound
    | some _ =>
      match db.rides.find? (fun r => r.itineraryId == some iid) with
      | some r =>
        if r.status = .completed ∨ r.status = .confirmed then .err .conflictItinerary
        else .ok { db with
          scheduleItems := db.scheduleItems.filter (fun x => ¬ x.itineraryId == iid),
          roomItems := db.roomItems.filter (fun x => ¬ x.itineraryId == iid),
          itineraries := db.itineraries.filter (fun i => ¬ (i.id == iid && i.customerId == c.id)) }
      | none => .ok { db with
          scheduleItems := db.scheduleItems.filter (fun x => ¬ x.itineraryId == iid),
          roomItems := db.roomItems.filter (fun x => ¬ x.itineraryId == iid),
          itineraries := db.itineraries.filter (fun i => ¬ (i.id == iid && i.customerId == c.id)) }

/-- book_ride_for_itinerary (customer_itineraries.py): resolve the customer,
check the itinerary belongs to them, and insert a new ride booking in status
pending with no driver assigned. -/
def book_ride_for_itinerary (db : DB) (itin_id user_id : Nat) : OpResult :=
  match db.customers.find? (fun c => c.userId == user_id) with
  | none => .err .notFound
  | some c =>
    match db.itineraries.find? (fun i => i.id == itin_id && i.customerId == c.id) with
    | none => .err .notFound
    | some _ => .ok { db with
        rides := db.rides ++ [⟨db.nextRideId, c.id, some itin_id, none, .pending⟩],
        nextRideId := db.nextRideId + 1 }

/-- accept_ride (driver.py): resolve the driver from the user id (404 if
absent), fetch the ride filtered by id, status pending and no assigned driver
(404 meaning not found or already accepted otherwise), then assign the driver
and set status confirmed. -/
def accept_ride (db : DB) (ride_id driver_user : Nat) : OpResult :=
  match db.drivers.find? (fun d => d.userId == driver_user) with
  | none => .err .notFound
  | some drv =>
    match db.rides.find? (fun r => r.id == ride_id && (r.status == .pending && r.driverId == none)) with
    | none => .err .alreadyClaimed
    | some _ => .ok { db with
        rides := updateFirst (fun r => r.id == ride_id && (r.status == .pending && r.driverId == none))
          (fun r => { r with driverId := some drv.id, status := .confirmed }) db.rides }

/-- cancel_ride (customer_itineraries.py): resolve the customer (absent
profile is an attribute error), check the itinerary belongs to them, find the
ride by id, itinerary and customer, and set its status to cancelled with no
check of the current status and without clearing driverId. -/
def cancel_ride (db : DB) (itin_id ride_id user_id : Nat) : OpResult :=
  match db.customers.find? (fun c => c.userId == user_id) with
  | none => .err .internalErr
  | some c =>
    match db.itineraries.find? (fun i => i.id == itin_id && i.customerId == c.id) with
    | none => .err .notFound
    | some _ =>
      match db.rides.find? (fun r => r.id == ride_id && (r.itineraryId == some itin_id && r.customerId == c.id)) with
      | none => .err .notFound
      | some _ => .ok { db with
          rides := updateFirst (fun r => r.id == ride_id && (r.itineraryId == some itin_id && r.customerId == c.id))
            (fun r => { r with status := .cancelled }) db.rides }

/-- The operations of the engine, one constructor per modelled handler. -/
inductive Op where
  | bookItem (room_item_id persons customer_id : Nat)
  | bookById (room_id : Nat) (s e : Int) (persons customer_id : Nat)
  | cancelBooking (booking_id customer_id : Nat)
  | cancelCustomer (booking_id user_id : Nat) (now : Int)
  | updateDates (itin_id item_id : Nat) (ns ne : Option Int) (user_id : Nat)
  | deleteItin (iid user_id : Nat)
  | createRide (itin_id user_id : Nat)
  | acceptRideOp (ride_id driver_user : Nat)
  | cancelRideOp (itin_id ride_id user_id : Nat)
deriving DecidableEq

/-- Dispatch an operation to its handler. -/
def runOp (db : DB) : Op → OpResult
  | .bookItem a b c => book_room db a b c
  | .bookById a s e p c => book_room_by_room_id db a s e p c
  | .cancelBooking a b => cancel_room_booking db a b
  | .cancelCustomer a b n => cancel_customer_booking db a b n
  | .updateDates a b ns ne u => update_room_dates db a b ns ne u
  | .deleteItin a u => delete_itinerary db a u
  | .createRide a u => book_ride_for_itinerary db a u
  | .acceptRideOp a d => accept_ride db a d
  | .cancelRideOp a b u => cancel_ride db a b u

/-- Database state after an operation: the new state on success, the old
state when the handler raised before commit. -/
def applyOp (db : DB) (op : Op) : DB :=
  match runOp db op with
  | .ok db2 => db2
  | .err _ => db

/-- Number of bookings of the given room covering the given day. -/
def coverCount (bs : List RoomBooking) (rid : Nat) (d : Int) : Nat :=
  bs.countP (fun b => b.roomId == rid && coversDay b d)

/-- The per-day capacity invariant: no room is covered on any day by more
bookings than it has units. -/
def capacityInv (db : DB) : Prop :=
  ∀ r ∈ db.rooms, ∀ d : Int, coverCount db.bookings r.id d ≤ r.totalNumber

/-- Hold and ledger consistency: a room item whose roomBookingId is set
references a booking of the same room with the same half-open date range. -/
def holdConsistency (db : DB) : Prop :=
  ∀ it ∈ db.roomItems, ∀ bid, it.roomBookingId = some bid →
    ∃ b ∈ db.bookings, b.id = bid ∧ b.roomId = it.roomId ∧
      b.startDate = it.startDate ∧ b.endDate = it.endDate

/-- One-to-one side condition: no booking id is referenced by two room
items. -/
def refsUnique (db : DB) : Prop :=
  ∀ bid : Nat, db.roomItems.countP (fun it => it.roomBookingId == some bid) ≤ 1

/-- An operation is date-safe when it is not a dates update whose target room
item is already committed (linked to a booking). -/
def opSafe (db : DB) : Op → Prop
  | .updateDates itin_id item_id _ _ _ =>
      ∀ it, db.roomItems.find? (fun x => x.id == item_id && x.itineraryId == itin_id) = some it →
        it.roomBookingId = none
  | _ => True

/-- The assigned-driver invariant that survives in the code: a confirmed or
completed transport request always has a driver assigned. -/
def driverInv (db : DB) : Prop :=
  ∀ r ∈ db.rides, (r.status = .confirmed ∨ r.status = .completed) → r.driverId ≠ none

/-- The two-sided form stated by the spec: a driver is assigned exactly when
the request is confirmed or completed. -/
def driverIffInv (db : DB) : Prop :=
  ∀ r ∈ db.rides, (r.driverId ≠ none ↔ (r.status = .confirmed ∨ r.status = .completed))

/-!
Concurrent commit model.  book_room_by_room_id is a check-then-insert
sequence with no lock and no availability-related constraint on the table, so
under concurrent callers the availability read and the insert of one request
can interleave with those of another.  A pending commit request is split into
its two database round trips, exactly reusing the availability computation
and the insert of the sequential handler.
-/

/-- Arguments of one in-flight book_room_by_room_id call. -/
structure PendingReq where
  room_id : Nat
  s : Int
  e : Int
  persons : Nat
  customer_id : Nat
deriving DecidableEq

/-- The availability read of book_room_by_room_id: none when the handler
errors before the loop; otherwise the list of unavailable dates it computes
against the current table contents. -/
def availCheck (db : DB) (q : PendingReq) : Option (List Int) :=
  match db.rooms.find? (fun r => r.id == q.room_id) with
  | none => none
  | some room =>
    if room.roomCapacity < q.persons then none
    else some (unavailableDatesById db room q.s q.e)

/-- The insert of book_room_by_room_id, applied after its check. -/
def doInsert (db : DB) (q : PendingReq) : DB :=
  { db with
    bookings := db.bookings ++ [⟨db.nextBookingId, q.customer_id, q.room_id, q.s, q.e, q.persons⟩],
    nextBookingId := db.nextBookingId + 1 }

/-- Progress of one in-flight commit: not yet checked, checked with the
recorded list of unavailable dates, stopped with an error, or inserted. -/
inductive CPhase where
  | initial
  | checked (dates : List Int)
  | stopped
  | inserted
deriving DecidableEq

/-- One in-flight commit request together with its progress. -/
structure CReq where
  q : PendingReq
  phase : CPhase
deriving DecidableEq

/-- State of the concurrent system: the shared database plus the in-flight
requests. -/
structure CState where
  db : DB
  reqs : List CReq
deriving DecidableEq

/-- A scheduler step: run the availability check of request i, or run the
insert of request i (which commits only when its recorded check was clean). -/
inductive CStep where
  | check (i : Nat)
  | insert (i : Nat)
deriving DecidableEq

/-- Execute one scheduler step. -/
def cstep (cs : CState) : CStep → CState
  | .check i =>
    match cs.reqs[i]? with
    | some r =>
      match r.phase with
      | .initial =>
        match availCheck cs.db r.q with
        | none => { cs with reqs := cs.reqs.set i { r with phase := .stopped } }
        | some ds => { cs with reqs := cs.reqs.set i { r with phase := .checked ds } }
      | _ => cs
    | none => cs
  | .insert i =>
    match cs.reqs[i]? with
    | some r =>
      match r.phase with
      | .checked [] =>
        { db := doInsert cs.db r.q, reqs := cs.reqs.set i { r with phase := .inserted } }
      | .checked _ => { cs with reqs := cs.reqs.set i { r with phase := .stopped } }
      | _ => cs
    | none => cs

/-- Execute a schedule of steps. -/
def crun (cs : CState) (steps : List CStep) : CState :=
  steps.foldl cstep cs

/-!
Concrete database states used as counterexamples and witnesses.
-/

/-- One room with two units and an otherwise empty database. -/
def dbSeqW : DB :=
  ⟨[⟨1, 1, 4, 2⟩], [], [], [], [], [], [], [], 1, 1⟩

/-- Concurrency scenario: one room with a single unit, two identical
in-flight commit requests for day 0. -/
def csRace : CState :=
  ⟨⟨[⟨1, 1, 4, 1⟩], [], [], [], [], [], [], [], 1, 1⟩,
   [⟨⟨1, 0, 1, 1, 7⟩, .initial⟩, ⟨⟨1, 0, 1, 1, 8⟩, .initial⟩]⟩

/-- Two rooms, a booking of room 1 over days [0, 2), and an uncommitted room
item for room 2 over days [0, 1) in itinerary 1 of customer 1 (user 10). -/
def dbCross : DB :=
  ⟨[⟨1, 1, 4, 5⟩, ⟨2, 1, 4, 1⟩], [⟨1, 9, 1, 0, 2, 2⟩], [⟨1, 1, 2, 0, 1, none⟩],
   [⟨1, 1⟩], [], [⟨1, 10⟩], [], [], 2, 1⟩

/-- One room with one unit and an empty ledger. -/
def dbOneRoom : DB :=
  ⟨[⟨1, 1, 4, 1⟩], [], [], [], [], [], [], [], 1, 1⟩

/-- A booking of customer 1 over days [10, 12) linked from room item 1 of
itinerary 1 (customer 1, user 10). -/
def dbLinked : DB :=
  ⟨[⟨1, 1, 4, 2⟩], [⟨1, 1, 1, 10, 12, 2⟩], [⟨1, 1, 1, 10, 12, some 1⟩],
   [⟨1, 1⟩], [], [⟨1, 10⟩], [], [], 2, 1⟩

/-- An uncommitted room item for room 1 over days [0, 2) in itinerary 1 of
customer 1 (user 10), with an empty ledger. -/
def dbHold : DB :=
  ⟨[⟨1, 1, 4, 5⟩], [], [⟨1, 1, 1, 0, 2, none⟩], [⟨1, 1⟩], [], [⟨1, 10⟩], [], [], 1, 1⟩

/-- A pending unassigned ride (id 1) of customer 2 and a driver (id 5, user
50). -/
def dbAcc : DB :=
  ⟨[], [], [], [⟨1, 2⟩], [], [⟨2, 20⟩], [⟨5, 50⟩], [⟨1, 2, some 1, none, .pending⟩], 1, 2⟩

/-- A completed ride (id 1) in itinerary 1 of customer 1 (user 10). -/
def dbDone : DB :=
  ⟨[], [], [], [⟨1, 1⟩], [], [⟨1, 10⟩], [], [⟨1, 1, some 1, some 5, .completed⟩], 1, 2⟩

/-- Customer 1 (user 10) with itinerary 1 and driver 5 (user 50); no rides
yet. -/
def dbRide0 : DB :=
  ⟨[], [], [], [⟨1, 1⟩], [], [⟨1, 10⟩], [⟨5, 50⟩], [], 1, 1⟩

/-- Itinerary 1 of customer 1 (user 10) with a room item, a schedule item,
and two linked rides: a cancelled one first, then a confirmed one. -/
def dbTwoRides : DB :=
  ⟨[], [], [⟨1, 1, 1, 0, 1, none⟩], [⟨1, 1⟩], [⟨1, 1⟩], [⟨1, 10⟩], [⟨5, 50⟩],
   [⟨1, 1, some 1, none, .cancelled⟩, ⟨2, 1, some 1, some 5, .confirmed⟩], 1, 3⟩

/-- A booking of customer 1 (user 10) over days [30, 32) with a linked room
item. -/
def dbFuture : DB :=
  ⟨[⟨1, 1, 4, 2⟩], [⟨1, 1, 1, 30, 32, 2⟩], [⟨1, 1, 1, 30, 32, some 1⟩],
   [⟨1, 1⟩], [], [⟨1, 10⟩], [], [], 2, 1⟩

/-!
General list lemmas about updateFirst, find? and eraseP.
-/

/-- Decomposition of updateFirst around the first match. -/
theorem updateFirst_decomp {α} (p : α → Bool) (f : α → α) (l : List α) (a : α)
    (h : l.find? p = some a) :
    ∃ l1 l2, l = l1 ++ a :: l2 ∧ (∀ x ∈ l1, p x = false) ∧
      updateFirst p f l = l1 ++ f a :: l2 := by
  induction l with
  | nil => simp at h
  | cons c t ih =>
    by_cases hc : p c
    · simp only [List.find?_cons, hc] at h
      injection h with h2
      subst h2
      exact ⟨[], t, rfl, by simp, by simp [updateFirst, hc]⟩
    · have hcf : p c = false := by simpa using hc
      simp only [List.find?_cons, hcf] at h
      obtain ⟨l1, l2, he, hall, hu⟩ := ih h
      refine ⟨c :: l1, l2, by simp [he], ?_, ?_⟩
      · intro x hx
        rcases List.mem_cons.mp hx with rfl | hx2
        · simpa using hc
        · exact hall x hx2
      · simp [updateFirst, hc, hu]

/-- Elements of updateFirst are old elements or the image of a matching old
element. -/
theorem mem_updateFirst {α} (p : α → Bool) (f : α → α) (l : List α) (x : α)
    (h : x ∈ updateFirst p f l) : x ∈ l ∨ ∃ a ∈ l, p a = true ∧ x = f a := by
  induction l with
  | nil => simp [updateFirst] at h
  | cons c t ih =>
    rw [updateFirst] at h
    by_cases hc : p c
    · rw [if_pos hc] at h
      rcases List.mem_cons.mp h with rfl | hx
      · exact Or.inr ⟨c, List.mem_cons_self c t, hc, rfl⟩
      · exact Or.inl (List.mem_cons_of_mem c hx)
    · rw [if_neg hc] at h
      rcases List.mem_cons.mp h with rfl | hx
      · exact Or.inl (List.mem_cons_self x t)
      · rcases ih hx with h2 | ⟨a, ha, hpa, hfa⟩
        · exact Or.inl (List.mem_cons_of_mem c h2)
        · exact Or.inr ⟨a, List.mem_cons_of_mem c ha, hpa, hfa⟩

/-- An element that does not match the predicate survives updateFirst. -/
theorem mem_updateFirst_of_not {α} (p : α → Bool) (f : α → α) (l : List α) (x : α)
    (hx : x ∈ l) (hpx : p x = false) : x ∈ updateFirst p f l := by
  induction l with
  | nil => simp at hx
  | cons c t ih =>
    rw [updateFirst]
    by_cases hc : p c
    · rw [if_pos hc]
      rcases List.mem_cons.mp hx with rfl | hx2
      · rw [hc] at hpx; cases hpx
      · exact List.mem_cons_of_mem _ hx2
    · rw [if_neg hc]
      rcases List.mem_cons.mp hx with rfl | hx2
      · exact List.mem_cons_self x _
      · exact List.mem_cons_of_mem c (ih hx2)

/-- After updating the first match with a function that clears the predicate,
no element matches when at most one matched before. -/
theorem updateFirst_clears {α} (p : α → Bool) (f : α → α) (l : List α)
    (hf : ∀ a, p (f a) = false) (h1 : l.countP p ≤ 1) :
    ∀ x ∈ updateFirst p f l, p x = false := by
  induction l with
  | nil => simp [updateFirst]
  | cons c t ih =>
    rw [updateFirst]
    by_cases hc : p c
    · rw [if_pos hc]
      intro x hx
      rcases List.mem_cons.mp hx with rfl | hx2
      · exact hf c
      · have hz : t.countP p = 0 := by
          rw [List.countP_cons, if_pos hc] at h1
          omega
        have := List.countP_eq_zero.mp hz x hx2
        simpa using this
    · rw [if_neg hc]
      intro x hx
      rcases List.mem_cons.mp hx with rfl | hx2
      · simpa using hc
      · refine ih ?_ x hx2
        rw [List.countP_cons, if_neg hc] at h1
        omega

/-- With pairwise distinct keys, any member carrying the searched key is the
element found. -/
theorem find_unique_of_nodup {α} (g : α → Nat) (l : List α) (k : Nat) (a b : α)
    (hn : (l.map g).Nodup) (hf : l.find? (fun x => g x == k) = some a)
    (hb : b ∈ l) (hbk : g b = k) : b = a := by
  induction l with
  | nil => simp at hf
  | cons c t ih =>
    rw [List.map_cons, List.nodup_cons] at hn
    by_cases hc : (g c == k) = true
    · simp only [List.find?_cons, hc] at hf
      injection hf with h2
      subst h2
      rcases List.mem_cons.mp hb with rfl | hb2
      · rfl
      · exfalso
        have hck : g c = k := by simpa using hc
        exact hn.1 (by rw [hck, ← hbk]; exact List.mem_map_of_mem g hb2)
    · have hcf : (g c == k) = false := by simpa using hc
      simp only [List.find?_cons, hcf] at hf
      rcases List.mem_cons.mp hb with rfl | hb2
      · exfalso; exact hc (by simpa using hbk)
      · exact ih hn.2 hf hb2

/-- Strengthening a key search with an extra condition: with pairwise
distinct keys the combined search finds the same element when it satisfies
the condition and nothing otherwise. -/
theorem find?_and_of_nodup {α} (g : α → Nat) (q : α → Bool) (l : List α) (k : Nat) (a : α)
    (hn : (l.map g).Nodup) (h : l.find? (fun x => g x == k) = some a) :
    l.find? (fun x => g x == k && q x) = if q a then some a else none := by
  induction l with
  | nil => simp at h
  | cons c t ih =>
    rw [List.map_cons, List.nodup_cons] at hn
    by_cases hc : (g c == k) = true
    · simp only [List.find?_cons, hc] at h
      injection h with h2
      subst h2
      by_cases hq : q c = true
      · rw [if_pos hq]
        simp only [List.find?_cons, hc, hq, Bool.and_self]
      · have hqf : q c = false := by simpa using hq
        rw [if_neg hq]
        simp only [List.find?_cons, hc, hqf, Bool.true_and]
        rw [List.find?_eq_none]
        intro x hx hpx
        have hxk : g x = k := by
          simp only [Bool.and_eq_true, beq_iff_eq] at hpx
          exact hpx.1
        have hck : g c = k := by simpa using hc
        exact hn.1 (by rw [hck, ← hxk]; exact List.mem_map_of_mem g hx)
    · have hcf : (g c == k) = false := by simpa using hc
      simp only [List.find?_cons, hcf] at h
      simp only [List.find?_cons, hcf, Bool.false_and]
      exact ih hn.2 h

/-- After erasing the first element with the searched key, no element carries
the key when keys are pairwise distinct. -/
theorem eraseP_key_gone {α} (g : α → Nat) (l : List α) (k : Nat)
    (hn : (l.map g).Nodup) :
    ∀ x ∈ l.eraseP (fun y => g y == k), g x ≠ k := by
  induction l with
  | nil => simp
  | cons c t ih =>
    rw [List.map_cons, List.nodup_cons] at hn
    by_cases hc : (g c == k) = true
    · simp only [List.eraseP_cons, hc, cond_true]
      intro x hx hxk
      have hck : g c = k := by simpa using hc
      exact hn.1 (by rw [hck, ← hxk]; exact List.mem_map_of_mem g hx)
    · have hcf : (g c == k) = false := by simpa using hc
      simp only [List.eraseP_cons, hcf, cond_false]
      intro x hx
      rcases List.mem_cons.mp hx with rfl | hx2
      · intro hk; exact hc (by simpa using hk)
      · exact ih hn.2 x hx2

/-!
Availability computation lemmas.
-/

/-- Membership in the iterated day list. -/
theorem mem_dayList {s e d : Int} : d ∈ dayList s e ↔ s ≤ d ∧ d < e := by
  simp only [dayList, List.mem_map, List.mem_range]
  constructor
  · rintro ⟨k, hk, rfl⟩
    omega
  · rintro ⟨h1, h2⟩
    exact ⟨(d - s).toNat, by omega, by omega⟩

/-- When the per-room availability loop reports no conflict, every day of the
range is covered by strictly fewer same-room overlapping bookings than the
room has units. -/
theorem unavailById_all (db : DB) (room : Room) (s e : Int)
    (h : unavailableDatesById db room s e = []) :
    ∀ d, s ≤ d → d < e →
      (db.bookings.filter (fun b => b.roomId == room.id && overlaps b s e)).countP
        (fun b => coversDay b d) < room.totalNumber := by
  intro d h1 h2
  simp only [unavailableDatesById] at h
  rw [List.filter_eq_nil_iff] at h
  have := h d (mem_dayList.mpr ⟨h1, h2⟩)
  simpa using this

/-- When the join-based availability loop reports no conflict, every day of
the range is covered by strictly fewer overlapping bookings (of any existing
room) than the given capacity. -/
theorem unavailJoin_all (db : DB) (tot : Nat) (s e : Int)
    (h : unavailableDatesJoin db tot s e = []) :
    ∀ d, s ≤ d → d < e →
      (db.bookings.filter (fun b => roomExists db b.roomId && overlaps b s e)).countP
        (fun b => coversDay b d) < tot := by
  intro d h1 h2
  simp only [unavailableDatesJoin] at h
  rw [List.filter_eq_nil_iff] at h
  have := h d (mem_dayList.mpr ⟨h1, h2⟩)
  simpa using this

/-- The cover count of a day inside the requested range is bounded by the
count over the same-room overlap-filtered bookings. -/
theorem coverCount_le_filterById (bs : List RoomBooking) (rid : Nat) (s e d : Int)
    (h1 : s ≤ d) (h2 : d < e) :
    coverCount bs rid d ≤
      (bs.filter (fun b => b.roomId == rid && overlaps b s e)).countP
        (fun b => coversDay b d) := by
  rw [List.countP_filter]
  apply List.countP_mono_left
  intro b _ hb
  simp only [Bool.and_eq_true, beq_iff_eq, coversDay, overlaps, decide_eq_true_eq] at hb ⊢
  obtain ⟨hr, hc1, hc2⟩ := hb
  exact ⟨⟨hc1, hc2⟩, hr, by omega, by omega⟩

/-- The cover count of a day inside the requested range for an existing room
is bounded by the count over the join-filtered bookings. -/
theorem coverCount_le_filterJoin (db : DB) (rid : Nat) (s e d : Int)
    (hex : roomExists db rid = true) (h1 : s ≤ d) (h2 : d < e) :
    coverCount db.bookings rid d ≤
      (db.bookings.filter (fun b => roomExists db b.roomId && overlaps b s e)).countP
        (fun b => coversDay b d) := by
  rw [List.countP_filter]
  apply List.countP_mono_left
  intro b _ hb
  simp only [Bool.and_eq_true, beq_iff_eq, coversDay, overlaps, decide_eq_true_eq] at hb ⊢
  obtain ⟨hr, hc1, hc2⟩ := hb
  exact ⟨⟨hc1, hc2⟩, by rw [hr]; exact hex, by omega, by omega⟩

/-- Cover count after appending one booking. -/
theorem coverCount_append (bs : List RoomBooking) (nb : RoomBooking) (rid : Nat) (d : Int) :
    coverCount (bs ++ [nb]) rid d =
      coverCount bs rid d + (if (nb.roomId == rid && coversDay nb d) = true then 1 else 0) := by
  simp [coverCount, List.countP_append, List.countP_cons]

/-- Capacity is insensitive to everything but the rooms and bookings
tables. -/
theorem cap_of_sub (db db2 : DB) (hinv : capacityInv db) (hr : db2.rooms = db.rooms)
    (hb : db2.bookings.Sublist db.bookings) : capacityInv db2 := by
  intro r hrm d
  rw [hr] at hrm
  exact le_trans (hb.countP_le _) (hinv r hrm d)

/-- A successful direct booking preserves the capacity invariant. -/
theorem cap_book_by_id (db : DB) (room_id : Nat) (s e : Int) (p cid : Nat) (db2 : DB)
    (hn : (db.rooms.map Room.id).Nodup) (hinv : capacityInv db)
    (h : book_room_by_room_id db room_id s e p cid = .ok db2) : capacityInv db2 := by
  unfold book_room_by_room_id at h
  split at h
  · cases h
  · next room hf =>
    split at h
    · cases h
    · split at h
      · next hud =>
        injection h with h2
        subst h2
        intro r2 hr2 d
        rw [coverCount_append]
        by_cases hP : ((⟨db.nextBookingId, cid, room_id, s, e, p⟩ : RoomBooking).roomId == r2.id
            && coversDay ⟨db.nextBookingId, cid, room_id, s, e, p⟩ d) = true
        · rw [if_pos hP]
          simp only [Bool.and_eq_true, beq_iff_eq, coversDay, decide_eq_true_eq] at hP
          obtain ⟨hrid, hd1, hd2⟩ := hP
          have hr2room : r2 = room :=
            find_unique_of_nodup Room.id db.rooms room_id room r2 hn hf hr2 hrid.symm
          rw [hr2room]
          have hlt := lt_of_le_of_lt
            (coverCount_le_filterById db.bookings room.id s e d hd1 hd2)
            (unavailById_all db room s e hud d hd1 hd2)
          omega
        · rw [if_neg hP]
          simpa using hinv r2 hr2 d
      · cases h

/-- A successful itinerary-item booking preserves the capacity invariant. -/
theorem cap_book_item (db : DB) (item_id p cid : Nat) (db2 : DB)
    (hn : (db.rooms.map Room.id).Nodup) (hinv : capacityInv db)
    (h : book_room db item_id p cid = .ok db2) : capacityInv db2 := by
  unfold book_room at h
  split at h
  · cases h
  · next item hitem =>
    split at h
    · cases h
    · split at h
      · cases h
      · split at h
        · cases h
        · next room hf =>
          split at h
          · next hud =>
            injection h with h2
            subst h2
            intro r2 hr2 d
            rw [coverCount_append]
            by_cases hP : ((⟨db.nextBookingId, cid, item.roomId, item.startDate, item.endDate, p⟩ : RoomBooking).roomId == r2.id
                && coversDay ⟨db.nextBookingId, cid, item.roomId, item.startDate, item.endDate, p⟩ d) = true
            · rw [if_pos hP]
              simp only [Bool.and_eq_true, beq_iff_eq, coversDay, decide_eq_true_eq] at hP
              obtain ⟨hrid, hd1, hd2⟩ := hP
              have hr2room : r2 = room :=
                find_unique_of_nodup Room.id db.rooms item.roomId room r2 hn hf hr2 hrid.symm
              rw [hr2room]
              have hex : roomExists db item.roomId = true := by
                rw [roomExists, List.any_eq_true]
                exact ⟨room, List.mem_of_find?_eq_some hf, by simpa using List.find?_some hf⟩
              have hlt := lt_of_le_of_lt
                (coverCount_le_filterJoin db item.roomId item.startDate item.endDate d hex hd1 hd2)
                (unavailJoin_all db room.totalNumber item.startDate item.endDate hud d hd1 hd2)
              have hrid3 : room.id = item.roomId := by
                have h4 := List.find?_some hf
                simpa using h4
              rw [hrid3]
              omega
            · rw [if_neg hP]
              simpa using hinv r2 hr2 d
          · cases h

/-- No handler writes to the rooms table. -/
theorem runOp_rooms (db : DB) (op : Op) (db2 : DB) (h : runOp db op = .ok db2) :
    db2.rooms = db.rooms := by
  cases op with
  | bookItem a b c =>
    simp only [runOp, book_room] at h
    repeat' split at h
    all_goals (cases h <;> rfl)
  | bookById a s e p c =>
    simp only [runOp, book_room_by_room_id] at h
    repeat' split at h
    all_goals (cases h <;> rfl)
  | cancelBooking a b =>
    simp only [runOp, cancel_room_booking] at h
    repeat' split at h
    all_goals (cases h <;> rfl)
  | cancelCustomer a b n =>
    simp only [runOp, cancel_customer_booking] at h
    repeat' split at h
    all_goals (cases h <;> rfl)
  | updateDates a b ns ne u =>
    simp only [runOp, update_room_dates] at h
    repeat' split at h
    all_goals (cases h <;> rfl)
  | deleteItin a u =>
    simp only [runOp, delete_itinerary] at h
    repeat' split at h
    all_goals (cases h <;> rfl)
  | createRide a u =>
    simp only [runOp, book_ride_for_itinerary] at h
    repeat' split at h
    all_goals (cases h <;> rfl)
  | acceptRideOp a d =>
    simp only [runOp, accept_ride] at h
    repeat' split at h
    all_goals (cases h <;> rfl)
  | cancelRideOp a b u =>
    simp only [runOp, cancel_ride] at h
    repeat' split at h
    all_goals (cases h <;> rfl)

/-- A successful booking cancellation erases the booking row. -/
theorem cancel_booking_bookings (db : DB) (a b : Nat) (db2 : DB)
    (h : cancel_room_booking db a b = .ok db2) :
    db2.bookings = db.bookings.eraseP (fun x => x.id == a) := by
  unfold cancel_room_booking at h
  repeat' split at h
  all_goals (cases h <;> rfl)

/-- A successful dashboard cancellation erases the booking row. -/
theorem cancel_customer_bookings (db : DB) (a b : Nat) (n : Int) (db2 : DB)
    (h : cancel_customer_booking db a b n = .ok db2) :
    db2.bookings = db.bookings.eraseP (fun x => x.id == a) := by
  unfold cancel_customer_booking at h
  repeat' split at h
  all_goals (cases h <;> rfl)

/-- The non-booking handlers never write to the bookings table. -/
theorem runOp_bookings_const (db : DB) (op : Op) (db2 : DB) (h : runOp db op = .ok db2)
    (hop : (match op with
      | .bookItem _ _ _ => False
      | .bookById _ _ _ _ _ => False
      | .cancelBooking _ _ => False
      | .cancelCustomer _ _ _ => False
      | _ => True)) :
    db2.bookings = db.bookings := by
  cases op with
  | bookItem a b c => cases hop
  | bookById a s e p c => cases hop
  | cancelBooking a b => cases hop
  | cancelCustomer a b n => cases hop
  | updateDates a b ns ne u =>
    simp only [runOp, update_room_dates] at h
    repeat' split at h
    all_goals (cases h <;> rfl)
  | deleteItin a u =>
    simp only [runOp, delete_itinerary] at h
    repeat' split at h
    all_goals (cases h <;> rfl)
  | createRide a u =>
    simp only [runOp, book_ride_for_itinerary] at h
    repeat' split at h
    all_goals (cases h <;> rfl)
  | acceptRideOp a d =>
    simp only [runOp, accept_ride] at h
    repeat' split at h
    all_goals (cases h <;> rfl)
  | cancelRideOp a b u =>
    simp only [runOp, cancel_ride] at h
    repeat' split at h
    all_goals (cases h <;> rfl)

/-- Every single operation preserves the capacity invariant. -/
theorem cap_preserve (db : DB) (op : Op)
    (hn : (db.rooms.map Room.id).Nodup) (hinv : capacityInv db) :
    capacityInv (applyOp db op) := by
  cases hrun : runOp db op with
  | err e =>
    simp only [applyOp, hrun]
    exact hinv
  | ok db2 =>
    simp only [applyOp, hrun]
    have hrooms : db2.rooms = db.rooms := runOp_rooms db op db2 hrun
    cases op with
    | bookItem a b c => exact cap_book_item db a b c db2 hn hinv hrun
    | bookById a s e p c => exact cap_book_by_id db a s e p c db2 hn hinv hrun
    | cancelBooking a b =>
      refine cap_of_sub db db2 hinv hrooms ?_
      rw [cancel_booking_bookings db a b db2 hrun]
      exact List.eraseP_sublist _
    | cancelCustomer a b n =>
      refine cap_of_sub db db2 hinv hrooms ?_
      rw [cancel_customer_bookings db a b n db2 hrun]
      exact List.eraseP_sublist _
    | updateDates a b ns ne u =>
      exact cap_of_sub db db2 hinv hrooms
        (by rw [runOp_bookings_const db _ db2 hrun trivial])
    | deleteItin a u =>
      exact cap_of_sub db db2 hinv hrooms
        (by rw [runOp_bookings_const db _ db2 hrun trivial])
    | createRide a u =>
      exact cap_of_sub db db2 hinv hrooms
        (by rw [runOp_bookings_const db _ db2 hrun trivial])
    | acceptRideOp a d =>
      exact cap_of_sub db db2 hinv hrooms
        (by rw [runOp_bookings_const db _ db2 hrun trivial])
    | cancelRideOp a b u =>
      exact cap_of_sub db db2 hinv hrooms
        (by rw [runOp_bookings_const db _ db2 hrun trivial])

/-- The rooms table is untouched by every operation. -/
theorem rooms_applyOp (db : DB) (op : Op) : (applyOp db op).rooms = db.rooms := by
  cases hrun : runOp db op with
  | err e => simp only [applyOp, hrun]
  | ok db2 =>
    simp only [applyOp, hrun]
    exact runOp_rooms db op db2 hrun

/-- C1, amended: with room ids pairwise distinct, the per-day capacity
invariant holds after any sequence of sequentially executed operations
(commits, releases and the other handlers).  The concurrent half of the
claim fails, see the counterexample. -/
theorem capacity_invariant_sequential (db : DB) (ops : List Op)
    (hn : (db.rooms.map Room.id).Nodup) (hinv : capacityInv db) :
    capacityInv (ops.foldl applyOp db) := by
  induction ops generalizing db with
  | nil => exact hinv
  | cons op rest ih =>
    rw [List.foldl_cons]
    refine ih (applyOp db op) ?_ (cap_preserve db op hn hinv)
    rw [rooms_applyOp]
    exact hn

/-- Witness for C1: from an empty ledger, a direct booking, an overlapping
second booking and a release keep every day within capacity. -/
theorem capacity_invariant_sequential_witness :
    capacityInv (List.foldl applyOp dbSeqW
      [Op.bookById 1 0 2 2 7, Op.bookById 1 1 3 2 8, Op.cancelBooking 1 7]) :=
  capacity_invariant_sequential dbSeqW
    [Op.bookById 1 0 2 2 7, Op.bookById 1 1 3 2 8, Op.cancelBooking 1 7]
    (by decide)
    (fun r hr d => by simp [dbSeqW, coverCount])

/-- C1, counterexample to the concurrency half: the capacity invariant holds
in the initial state of csRace (one unit, empty ledger), yet interleaving the
two in-flight commits as check, check, insert, insert drives day 0 of room 1
to two bookings against a single unit, because each availability check reads
the table before either insert is committed. -/
theorem capacity_concurrent_counterexample :
    capacityInv csRace.db ∧
    ¬ capacityInv (crun csRace [.check 0, .check 1, .insert 0, .insert 1]).db := by
  constructor
  · intro r hr d
    simp [csRace, coverCount]
  · intro h
    have h2 := h ⟨1, 1, 4, 1⟩ (by decide) 0
    revert h2
    decide

/-- C2: the availability check of book_room counts bookings of every room,
not only the requested one.  In dbCross, room 2 has no overlapping booking at
all, yet committing its room item fails with conflicting date 0, because the
overlapping booking of room 1 is counted against room 2's single unit.  The
comment in the source (bookings for this room type in the hotel) and the
parallel handler book_room_by_room_id both show the intended same-room
filter, which the query lacks. -/
theorem cross_room_conflict_bug :
    book_room dbCross 1 2 1 = .err (.capacity [0]) ∧
    dbCross.bookings.countP (fun b => b.roomId == 2 && overlaps b 0 1) = 0 := by
  constructor
  · decide
  · decide

/-- C3: a commit with endDate equal to startDate (and likewise any endDate
at most startDate) is not rejected with an invalid-range error: the
availability loop iterates over no day, so the handler inserts a zero-length
booking and reports success.  The second conjunct shows the other half of the
claim: when a day is full the handler does fail with the conflicting
dates. -/
theorem zero_length_commit_accepted :
    (∃ db2, book_room_by_room_id dbOneRoom 1 0 0 1 7 = .ok db2 ∧
      (⟨1, 7, 1, 0, 0, 1⟩ : RoomBooking) ∈ db2.bookings) ∧
    book_room_by_room_id (applyOp dbOneRoom (.bookById 1 0 1 1 7)) 1 0 1 1 8 =
      .err (.capacity [0]) := by
  constructor
  · exact ⟨_, rfl, by decide⟩
  · decide

/-- C4: release of a booking answers not-found when no booking has the id,
forbidden (changing nothing) when the requester does not own it, and
otherwise deletes the booking and unlinks every referencing room item in the
same transaction, after which a second release of the same id answers
not-found.  Booking ids are assumed pairwise distinct and the booking is
assumed referenced by at most one room item (the one-to-one invariant). -/
theorem release_booking_claim (db : DB) (bid cid : Nat)
    (hndb : (db.bookings.map RoomBooking.id).Nodup)
    (hone : db.roomItems.countP (fun it => it.roomBookingId == some bid) ≤ 1) :
    (db.bookings.find? (fun x => x.id == bid) = none →
      cancel_room_booking db bid cid = .err .notFound ∧
      applyOp db (.cancelBooking bid cid) = db) ∧
    (∀ b, db.bookings.find? (fun x => x.id == bid) = some b → b.customerId ≠ cid →
      cancel_room_booking db bid cid = .err .forbidden ∧
      applyOp db (.cancelBooking bid cid) = db) ∧
    (∀ b, db.bookings.find? (fun x => x.id == bid) = some b → b.customerId = cid →
      ∃ db2, cancel_room_booking db bid cid = .ok db2 ∧
        (∀ b2 ∈ db2.bookings, b2.id ≠ bid) ∧
        (∀ b2 ∈ db.bookings, b2.id ≠ bid → b2 ∈ db2.bookings) ∧
        (∀ it ∈ db2.roomItems, it.roomBookingId ≠ some bid) ∧
        (∀ it ∈ db.roomItems, it.roomBookingId ≠ some bid → it ∈ db2.roomItems) ∧
        cancel_room_booking db2 bid cid = .err .notFound) := by
  refine ⟨?_, ?_, ?_⟩
  · intro h
    constructor
    · simp only [cancel_room_booking, h]
    · simp only [applyOp, runOp, cancel_room_booking, h]
  · intro b hb hne
    constructor
    · simp only [cancel_room_booking, hb]
      rw [if_pos hne]
    · simp only [applyOp, runOp, cancel_room_booking, hb]
      rw [if_pos hne]
  · intro b hb heq
    have hok : cancel_room_booking db bid cid = .ok { db with
        roomItems := updateFirst (fun it => it.roomBookingId == some bid)
          (fun it => { it with roomBookingId := none }) db.roomItems,
        bookings := db.bookings.eraseP (fun x => x.id == bid) } := by
      simp only [cancel_room_booking, hb]
      rw [if_neg (by simp [heq])]
    refine ⟨_, hok, ?_, ?_, ?_, ?_, ?_⟩
    · intro b2 hb2
      exact eraseP_key_gone RoomBooking.id db.bookings bid hndb b2 hb2
    · intro b2 hb2 hne
      exact (List.mem_eraseP_of_neg (by simp [hne])).mpr hb2
    · intro it hit hsome
      have hfalse := updateFirst_clears (fun it => it.roomBookingId == some bid)
        (fun it => { it with roomBookingId := none }) db.roomItems
        (fun a => by simp) hone it hit
      simp [hsome] at hfalse
    · intro it hit hne
      exact mem_updateFirst_of_not _ _ db.roomItems it hit (by simpa using hne)
    · have hnone : (db.bookings.eraseP (fun x => x.id == bid)).find?
          (fun x => x.id == bid) = none := by
        rw [List.find?_eq_none]
        intro x hx
        have := eraseP_key_gone RoomBooking.id db.bookings bid hndb x hx
        simpa using this
      simp only [cancel_room_booking]
      rw [hnone]

/-- Witness for C4: in dbLinked, releasing booking 1 as its owner succeeds
and a second release answers not-found. -/
theorem release_booking_claim_witness :
    ∃ db2, cancel_room_booking dbLinked 1 1 = .ok db2 ∧
      cancel_room_booking db2 1 1 = .err .notFound := by
  obtain ⟨db2, h1, _, _, _, _, h6⟩ :=
    (release_booking_claim dbLinked 1 1 (by decide) (by decide)).2.2
      ⟨1, 1, 1, 10, 12, 2⟩ (by decide) rfl
  exact ⟨db2, h1, h6⟩

/-- Hold consistency is insensitive to everything but the room items and
bookings tables. -/
theorem hold_of_eq (db db2 : DB) (hc : holdConsistency db)
    (hi : db2.roomItems = db.roomItems) (hb : db2.bookings = db.bookings) :
    holdConsistency db2 := by
  intro it hit bid hbid
  rw [hi] at hit
  rw [hb]
  exact hc it hit bid hbid

/-- The ride handlers never write to the room items or bookings tables. -/
theorem runOp_ride_tables (db : DB) (op : Op) (db2 : DB) (h : runOp db op = .ok db2)
    (hop : (match op with
      | .createRide _ _ => True
      | .acceptRideOp _ _ => True
      | .cancelRideOp _ _ _ => True
      | _ => False)) :
    db2.roomItems = db.roomItems ∧ db2.bookings = db.bookings := by
  cases op with
  | createRide a u =>
    simp only [runOp, book_ride_for_itinerary] at h
    repeat' split at h
    all_goals (cases h <;> exact ⟨rfl, rfl⟩)
  | acceptRideOp a d =>
    simp only [runOp, accept_ride] at h
    repeat' split at h
    all_goals (cases h <;> exact ⟨rfl, rfl⟩)
  | cancelRideOp a b u =>
    simp only [runOp, cancel_ride] at h
    repeat' split at h
    all_goals (cases h <;> exact ⟨rfl, rfl⟩)
  | bookItem a b c => cases hop
  | bookById a s e p c => cases hop
  | cancelBooking a b => cases hop
  | cancelCustomer a b n => cases hop
  | updateDates a b ns ne u => cases hop
  | deleteItin a u => cases hop

/-- C5, amended: hold and ledger consistency holds after every operation
that held it before, except a dates update of an already committed room item
(excluded by opSafe); in particular a successful commit links its room item
to a booking of the same room with the same dates.  Needs the one-to-one
reference invariant so that releasing unlinks the only referencing item. -/
theorem hold_consistency_preserved (db : DB) (op : Op)
    (hone : refsUnique db) (hc : holdConsistency db) (hs : opSafe db op) :
    holdConsistency (applyOp db op) := by
  cases hrun : runOp db op with
  | err e =>
    simp only [applyOp, hrun]
    exact hc
  | ok db2 =>
    simp only [applyOp, hrun]
    cases op with
    | bookItem a b c =>
      have h := hrun
      simp only [runOp] at h
      unfold book_room at h
      split at h
      · cases h
      · next item hitem =>
        split at h
        · cases h
        · split at h
          · cases h
          · next hnone =>
            split at h
            · cases h
            · next room hroom =>
              split at h
              · next hud =>
                injection h with h2
                subst h2
                obtain ⟨l1, l2, heqL, hall, hupd⟩ :=
                  updateFirst_decomp (fun it => it.id == a)
                    (fun it => { it with roomBookingId := some db.nextBookingId })
                    db.roomItems item hitem
                intro it2 hit2 bid hbid
                simp only [hupd] at hit2
                rcases List.mem_append.mp hit2 with hmem | hmem
                · have hold := hc it2 (by rw [heqL]; exact List.mem_append_left _ hmem) bid hbid
                  obtain ⟨bk, hbk, hprops⟩ := hold
                  exact ⟨bk, List.mem_append_left _ hbk, hprops⟩
                · rcases List.mem_cons.mp hmem with rfl | hmem2
                  · have hbid2 : db.nextBookingId = bid := by
                      simpa using hbid
                    refine ⟨⟨db.nextBookingId, c, item.roomId, item.startDate, item.endDate, b⟩,
                      List.mem_append_right _ (List.mem_singleton_self _), hbid2, rfl, rfl, rfl⟩
                  · have hold := hc it2
                      (by rw [heqL]; exact List.mem_append_right _ (List.mem_cons_of_mem _ hmem2))
                      bid hbid
                    obtain ⟨bk, hbk, hprops⟩ := hold
                    exact ⟨bk, List.mem_append_left _ hbk, hprops⟩
              · cases h
    | bookById a s e p c =>
      have h := hrun
      simp only [runOp] at h
      unfold book_room_by_room_id at h
      split at h
      · cases h
      · split at h
        · cases h
        · split at h
          · injection h with h2
            subst h2
            intro it2 hit2 bid hbid
            obtain ⟨bk, hbk, hprops⟩ := hc it2 hit2 bid hbid
            exact ⟨bk, List.mem_append_left _ hbk, hprops⟩
          · cases h
    | cancelBooking a c =>
      have h := hrun
      simp only [runOp] at h
      unfold cancel_room_booking at h
      split at h
      · cases h
      · split at h
        · cases h
        · injection h with h2
          subst h2
          intro it2 hit2 bid hbid
          have hclear := updateFirst_clears (fun it => it.roomBookingId == some a)
            (fun it => { it with roomBookingId := none }) db.roomItems
            (fun x => by simp) (hone a) it2 hit2
          have hba : bid ≠ a := by
            simp [hbid] at hclear
            exact hclear
          rcases mem_updateFirst _ _ db.roomItems it2 hit2 with hmem | ⟨aold, _, _, rfl⟩
          · obtain ⟨bk, hbk, hkid, hprops⟩ := hc it2 hmem bid hbid
            refine ⟨bk, ?_, hkid, hprops⟩
            refine (List.mem_eraseP_of_neg ?_).mpr hbk
            simp [hkid, hba]
          · cases hbid
    | cancelCustomer a u n =>
      have h := hrun
      simp only [runOp] at h
      unfold cancel_customer_booking at h
      split at h
      · cases h
      · split at h
        · cases h
        · split at h
          · cases h
          · split at h
            · cases h
            · injection h with h2
              subst h2
              intro it2 hit2 bid hbid
              have hclear := updateFirst_clears (fun it => it.roomBookingId == some a)
                (fun it => { it with roomBookingId := none }) db.roomItems
                (fun x => by simp) (hone a) it2 hit2
              have hba : bid ≠ a := by
                simp [hbid] at hclear
                exact hclear
              rcases mem_updateFirst _ _ db.roomItems it2 hit2 with hmem | ⟨aold, _, _, rfl⟩
              · obtain ⟨bk, hbk, hkid, hprops⟩ := hc it2 hmem bid hbid
                refine ⟨bk, ?_, hkid, hprops⟩
                refine (List.mem_eraseP_of_neg ?_).mpr hbk
                simp [hkid, hba]
              · cases hbid
    | updateDates itin_id item_id ns ne u =>
      have h := hrun
      simp only [runOp] at h
      unfold update_room_dates at h
      split at h
      · cases h
      · split at h
        · cases h
        · split at h
          · cases h
          · next it0 hfind =>
            have hit0 : it0.roomBookingId = none := hs it0 hfind
            injection h with h2
            subst h2
            obtain ⟨l1, l2, heqL, hall, hupd⟩ :=
              updateFirst_decomp (fun it => it.id == item_id && it.itineraryId == itin_id)
                (fun it =>
                  { it with
                    startDate := ns.getD it.startDate,
                    endDate := ne.getD it.endDate })
                db.roomItems it0 hfind
            intro it2 hit2 bid hbid
            simp only [hupd] at hit2
            rcases List.mem_append.mp hit2 with hmem | hmem
            · exact hc it2 (by rw [heqL]; exact List.mem_append_left _ hmem) bid hbid
            · rcases List.mem_cons.mp hmem with rfl | hmem2
              · rw [show ({ it0 with
                      startDate := ns.getD it0.startDate,
                      endDate := ne.getD it0.endDate } : RoomItem).roomBookingId
                    = it0.roomBookingId from rfl, hit0] at hbid
                cases hbid
              · exact hc it2
                  (by rw [heqL]; exact List.mem_append_right _ (List.mem_cons_of_mem _ hmem2))
                  bid hbid
    | deleteItin a u =>
      have h := hrun
      simp only [runOp] at h
      unfold delete_itinerary at h
      split at h
      · cases h
      · split at h
        · cases h
        · split at h
          · split at h
            · cases h
            · injection h with h2
              subst h2
              intro it2 hit2 bid hbid
              exact hc it2 (List.mem_filter.mp hit2).1 bid hbid
          · injection h with h2
            subst h2
            intro it2 hit2 bid hbid
            exact hc it2 (List.mem_filter.mp hit2).1 bid hbid
    | createRide a u =>
      obtain ⟨hi, hb⟩ := runOp_ride_tables db _ db2 hrun trivial
      exact hold_of_eq db db2 hc hi hb
    | acceptRideOp a d =>
      obtain ⟨hi, hb⟩ := runOp_ride_tables db _ db2 hrun trivial
      exact hold_of_eq db db2 hc hi hb
    | cancelRideOp a b u =>
      obtain ⟨hi, hb⟩ := runOp_ride_tables db _ db2 hrun trivial
      exact hold_of_eq db db2 hc hi hb

/-- Witness for C5: a direct booking on dbHold (one uncommitted room item)
preserves hold consistency. -/
theorem hold_consistency_preserved_witness :
    holdConsistency (applyOp dbHold (.bookById 1 0 1 1 7)) := by
  refine hold_consistency_preserved dbHold (.bookById 1 0 1 1 7) ?_ ?_ trivial
  · intro bid
    exact le_trans (List.countP_le_length _) (by decide)
  · intro it hit bid hbid
    simp [dbHold] at hit
    subst hit
    cases hbid

/-- C5, counterexample: commit the room item of dbHold (establishing the
link), then update the committed item's dates through update_room_dates.  The
handler changes the item's dates without touching the booking, so the linked
booking no longer carries the item's date range. -/
theorem hold_consistency_counterexample :
    ¬ holdConsistency (applyOp (applyOp dbHold (.bookItem 1 2 1))
      (.updateDates 1 1 (some 3) (some 5) 10)) := by
  intro h
  have h2 := h ⟨1, 1, 1, 3, 5, some 1⟩ (by decide) 1 rfl
  obtain ⟨b, hb, hid, hroom, hsd, hed⟩ := h2
  have hbl : (applyOp (applyOp dbHold (.bookItem 1 2 1))
      (.updateDates 1 1 (some 3) (some 5) 10)).bookings = [⟨1, 1, 1, 0, 2, 2⟩] := by
    decide
  rw [hbl] at hb
  simp at hb
  subst hb
  exact absurd hsd (by decide)

/-- With pairwise distinct keys, nothing before the distinguished element
carries its key. -/
theorem key_notin_left {α} (g : α → Nat) (l1 l2 : List α) (a : α)
    (hn : ((l1 ++ a :: l2).map g).Nodup) : ∀ x ∈ l1, g x ≠ g a := by
  intro x hx hgx
  rw [List.map_append, List.nodup_append] at hn
  refine hn.2.2 (List.mem_map_of_mem g hx) ?_
  rw [List.map_cons, hgx]
  exact List.mem_cons_self _ _

/-- C6: accepting a ride, with the driver profile present and the target
ride id existing (ids pairwise distinct), succeeds exactly when the ride is
pending with no driver assigned; on success the ride is recorded as confirmed
with the driver's id and every other ride survives; otherwise the handler
answers the not-found-or-already-accepted error (AlreadyClaimed) and nothing
changes. -/
theorem accept_ride_claim (db : DB) (ride_id driver_user : Nat) (drv : Driver) (r : RideBooking)
    (hdrv : db.drivers.find? (fun d => d.userId == driver_user) = some drv)
    (hn : (db.rides.map RideBooking.id).Nodup)
    (hr : db.rides.find? (fun x => x.id == ride_id) = some r) :
    (r.status = .pending ∧ r.driverId = none →
      ∃ db2, accept_ride db ride_id driver_user = .ok db2 ∧
        db2.rides.find? (fun x => x.id == ride_id) =
          some { r with driverId := some drv.id, status := .confirmed } ∧
        (∀ x ∈ db.rides, x.id ≠ ride_id → x ∈ db2.rides) ∧
        db2.bookings = db.bookings ∧ db2.roomItems = db.roomItems) ∧
    (¬ (r.status = .pending ∧ r.driverId = none) →
      accept_ride db ride_id driver_user = .err .alreadyClaimed ∧
      applyOp db (.acceptRideOp ride_id driver_user) = db) := by
  have hrid : r.id = ride_id := by simpa using List.find?_some hr
  constructor
  · rintro ⟨hst, hdr⟩
    have hq : ((r.status == RideStatus.pending) && (r.driverId == none)) = true := by
      simp [hst, hdr]
    have hfind2 : db.rides.find?
        (fun x => x.id == ride_id && (x.status == .pending && x.driverId == none)) = some r := by
      rw [find?_and_of_nodup RideBooking.id
        (fun x => (x.status == RideStatus.pending) && (x.driverId == none))
        db.rides ride_id r hn hr]
      rw [if_pos hq]
    obtain ⟨l1, l2, heqL, hall, hupd⟩ :=
      updateFirst_decomp (fun x => x.id == ride_id && (x.status == .pending && x.driverId == none))
        (fun x => { x with driverId := some drv.id, status := .confirmed }) db.rides r hfind2
    have hok : accept_ride db ride_id driver_user = .ok { db with
        rides := updateFirst
          (fun x => x.id == ride_id && (x.status == .pending && x.driverId == none))
          (fun x => { x with driverId := some drv.id, status := .confirmed }) db.rides } := by
      simp only [accept_ride, hdrv, hfind2]
    refine ⟨_, hok, ?_, ?_, rfl, rfl⟩
    · simp only [hupd]
      rw [List.find?_append]
      have hleft : l1.find? (fun x => x.id == ride_id) = none := by
        rw [List.find?_eq_none]
        intro x hx
        have h5 := key_notin_left RideBooking.id l1 l2 r (by rw [← heqL]; exact hn) x hx
        rw [hrid] at h5
        simpa using h5
      rw [hleft, Option.none_or]
      have hpr : ((({ r with driverId := some drv.id, status := .confirmed } : RideBooking)).id
          == ride_id) = true := by simpa using hrid
      simp only [List.find?_cons, hpr]
    · intro x hx hne
      rw [heqL] at hx
      simp only [hupd]
      rcases List.mem_append.mp hx with hx1 | hx2
      · exact List.mem_append_left _ hx1
      · rcases List.mem_cons.mp hx2 with rfl | hx3
        · exact absurd hrid hne
        · exact List.mem_append_right _ (List.mem_cons_of_mem _ hx3)
  · intro hcond
    have hq : ((r.status == RideStatus.pending) && (r.driverId == none)) = false := by
      by_cases hA : r.status = RideStatus.pending
      · by_cases hB : r.driverId = none
        · exact absurd ⟨hA, hB⟩ hcond
        · simp [hB]
      · simp [hA]
    have hfind2 : db.rides.find?
        (fun x => x.id == ride_id && (x.status == .pending && x.driverId == none)) = none := by
      rw [find?_and_of_nodup RideBooking.id
        (fun x => (x.status == RideStatus.pending) && (x.driverId == none))
        db.rides ride_id r hn hr]
      rw [if_neg (by simp [hq])]
    constructor
    · simp only [accept_ride, hdrv, hfind2]
    · simp only [applyOp, runOp, accept_ride, hdrv, hfind2]

/-- Witness for C6: in dbAcc the pending unassigned ride 1 is claimed by the
driver with user id 50 and becomes confirmed with driver id 5. -/
theorem accept_ride_claim_witness :
    ∃ db2, accept_ride dbAcc 1 50 = .ok db2 ∧
      db2.rides.find? (fun x => x.id == 1) =
        some ⟨1, 2, some 1, some 5, .confirmed⟩ := by
  obtain ⟨db2, h1, h2, _⟩ :=
    (accept_ride_claim dbAcc 1 50 ⟨5, 50⟩ ⟨1, 2, some 1, none, .pending⟩
      (by decide) (by decide) (by decide)).1 ⟨rfl, rfl⟩
  exact ⟨db2, h1, h2⟩

/-- C7, amended: the claim and creation handlers never change the status of
a completed or cancelled request (accepting touches only a pending ride and
creation only appends); the cancel handler, however, is permitted from every
status, not only pending and confirmed: whenever its ownership lookups
succeed it sets the target's status to cancelled, including from completed
and cancelled. -/
theorem ride_terminal_amended :
    (∀ db rid du db2, accept_ride db rid du = .ok db2 →
      ∀ r ∈ db.rides, (r.status = .completed ∨ r.status = .cancelled) → r ∈ db2.rides) ∧
    (∀ db itin u db2, book_ride_for_itinerary db itin u = .ok db2 →
      ∀ r ∈ db.rides, r ∈ db2.rides) ∧
    (∀ db itin rid u (c : Customer) (i : Itinerary) (r : RideBooking),
      db.customers.find? (fun x => x.userId == u) = some c →
      db.itineraries.find? (fun x => x.id == itin && x.customerId == c.id) = some i →
      db.rides.find? (fun x => x.id == rid && (x.itineraryId == some itin && x.customerId == c.id))
        = some r →
      ∃ db2, cancel_ride db itin rid u = .ok db2 ∧
        { r with status := RideStatus.cancelled } ∈ db2.rides) := by
  refine ⟨?_, ?_, ?_⟩
  · intro db rid du db2 h r hr hterm
    unfold accept_ride at h
    split at h
    · cases h
    · split at h
      · cases h
      · injection h with h2
        subst h2
        refine mem_updateFirst_of_not _ _ db.rides r hr ?_
        rcases hterm with hterm | hterm <;> simp [hterm]
  · intro db itin u db2 h r hr
    unfold book_ride_for_itinerary at h
    split at h
    · cases h
    · split at h
      · cases h
      · injection h with h2
        subst h2
        exact List.mem_append_left _ hr
  · intro db itin rid u c i r hc hi hr
    have hok : cancel_ride db itin rid u = .ok { db with
        rides := updateFirst
          (fun x => x.id == rid && (x.itineraryId == some itin && x.customerId == c.id))
          (fun x => { x with status := .cancelled }) db.rides } := by
      simp only [cancel_ride, hc, hi, hr]
    obtain ⟨l1, l2, heqL, hall, hupd⟩ :=
      updateFirst_decomp (fun x => x.id == rid && (x.itineraryId == some itin && x.customerId == c.id))
        (fun x => { x with status := .cancelled }) db.rides r hr
    refine ⟨_, hok, ?_⟩
    simp only [hupd]
    exact List.mem_append_right _ (List.mem_cons_self _ _)

/-- Witness for C7: cancelling the completed ride of dbDone succeeds and the
ride reappears as cancelled. -/
theorem ride_terminal_amended_witness :
    ∃ db2, cancel_ride dbDone 1 1 10 = .ok db2 ∧
      (⟨1, 1, some 1, some 5, .cancelled⟩ : RideBooking) ∈ db2.rides := by
  obtain ⟨db2, h1, h2⟩ := ride_terminal_amended.2.2 dbDone 1 1 10 ⟨1, 10⟩ ⟨1, 1⟩
    ⟨1, 1, some 1, some 5, .completed⟩ (by decide) (by decide) (by decide)
  exact ⟨db2, h1, h2⟩

/-- C7, counterexample: dbDone holds a completed ride, yet cancel_ride
succeeds on it and afterwards no completed ride remains, so an operation
changed the status of a completed (terminal) request, and cancellation was
permitted from a status outside pending and confirmed. -/
theorem ride_terminal_counterexample :
    (∃ r ∈ dbDone.rides, r.status = .completed) ∧
    ∃ db2, cancel_ride dbDone 1 1 10 = .ok db2 ∧
      ∀ r ∈ db2.rides, r.status ≠ .completed := by
  constructor
  · exact ⟨⟨1, 1, some 1, some 5, .completed⟩, by decide, rfl⟩
  · exact ⟨_, rfl, by decide⟩

/-- The room and itinerary handlers never write to the rides table. -/
theorem runOp_rides_const (db : DB) (op : Op) (db2 : DB) (h : runOp db op = .ok db2)
    (hop : (match op with
      | .createRide _ _ => False
      | .acceptRideOp _ _ => False
      | .cancelRideOp _ _ _ => False
      | _ => True)) :
    db2.rides = db.rides := by
  cases op with
  | bookItem a b c =>
    simp only [runOp, book_room] at h
    repeat' split at h
    all_goals (cases h <;> rfl)
  | bookById a s e p c =>
    simp only [runOp, book_room_by_room_id] at h
    repeat' split at h
    all_goals (cases h <;> rfl)
  | cancelBooking a b =>
    simp only [runOp, cancel_room_booking] at h
    repeat' split at h
    all_goals (cases h <;> rfl)
  | cancelCustomer a b n =>
    simp only [runOp, cancel_customer_booking] at h
    repeat' split at h
    all_goals (cases h <;> rfl)
  | updateDates a b ns ne u =>
    simp only [runOp, update_room_dates] at h
    repeat' split at h
    all_goals (cases h <;> rfl)
  | deleteItin a u =>
    simp only [runOp, delete_itinerary] at h
    repeat' split at h
    all_goals (cases h <;> rfl)
  | createRide a u => cases hop
  | acceptRideOp a d => cases hop
  | cancelRideOp a b u => cases hop

/-- C8, amended: the direction of the invariant the code maintains is that a
confirmed or completed request always has a driver assigned; it is preserved
by every operation, and ride creation only appends pending requests with no
driver.  The converse direction fails, see the counterexample: cancelling a
confirmed request keeps the driver assigned. -/
theorem driver_assignment_amended (db : DB) (op : Op) (hinv : driverInv db) :
    driverInv (applyOp db op) ∧
    (∀ itin u db2, book_ride_for_itinerary db itin u = .ok db2 →
      ∀ r ∈ db2.rides, r ∈ db.rides ∨ (r.status = .pending ∧ r.driverId = none)) := by
  constructor
  · cases hrun : runOp db op with
    | err e =>
      simp only [applyOp, hrun]
      exact hinv
    | ok db2 =>
      simp only [applyOp, hrun]
      cases op with
      | createRide a u =>
        have h := hrun
        simp only [runOp] at h
        unfold book_ride_for_itinerary at h
        split at h
        · cases h
        · split at h
          · cases h
          · injection h with h2
            subst h2
            intro r hr hst
            rcases List.mem_append.mp hr with hr1 | hr2
            · exact hinv r hr1 hst
            · rcases List.mem_cons.mp hr2 with rfl | hr3
              · rcases hst with hst | hst <;> cases hst
              · simp at hr3
      | acceptRideOp a d =>
        have h := hrun
        simp only [runOp] at h
        unfold accept_ride at h
        split at h
        · cases h
        · next drv hdrv =>
          split at h
          · cases h
          · injection h with h2
            subst h2
            intro r hr hst
            rcases mem_updateFirst _ _ db.rides r hr with hmem | ⟨aold, _, _, rfl⟩
            · exact hinv r hmem hst
            · simp
      | cancelRideOp a b u =>
        have h := hrun
        simp only [runOp] at h
        unfold cancel_ride at h
        split at h
        · cases h
        · split at h
          · cases h
          · split at h
            · cases h
            · injection h with h2
              subst h2
              intro r hr hst
              rcases mem_updateFirst _ _ db.rides r hr with hmem | ⟨aold, _, _, rfl⟩
              · exact hinv r hmem hst
              · rcases hst with hst | hst <;> cases hst
      | bookItem a b c =>
        intro r hr
        rw [runOp_rides_const db _ db2 hrun trivial] at hr
        exact hinv r hr
      | bookById a s e p c =>
        intro r hr
        rw [runOp_rides_const db _ db2 hrun trivial] at hr
        exact hinv r hr
      | cancelBooking a b =>
        intro r hr
        rw [runOp_rides_const db _ db2 hrun trivial] at hr
        exact hinv r hr
      | cancelCustomer a b n =>
        intro r hr
        rw [runOp_rides_const db _ db2 hrun trivial] at hr
        exact hinv r hr
      | updateDates a b ns ne u =>
        intro r hr
        rw [runOp_rides_const db _ db2 hrun trivial] at hr
        exact hinv r hr
      | deleteItin a u =>
        intro r hr
        rw [runOp_rides_const db _ db2 hrun trivial] at hr
        exact hinv r hr
  · intro itin u db2 h r hr
    unfold book_ride_for_itinerary at h
    split at h
    · cases h
    · split at h
      · cases h
      · injection h with h2
        subst h2
        rcases List.mem_append.mp hr with hr1 | hr2
        · exact Or.inl hr1
        · rcases List.mem_cons.mp hr2 with rfl | hr3
          · exact Or.inr ⟨rfl, rfl⟩
          · simp at hr3

/-- Witness for C8: the one-directional invariant holds after creating a
ride on dbRide0. -/
theorem driver_assignment_amended_witness :
    driverInv (applyOp dbRide0 (.createRide 1 10)) :=
  (driver_assignment_amended dbRide0 (.createRide 1 10)
    (by intro r hr; simp [dbRide0] at hr)).1

/-- C8, counterexample: create a ride, let a driver accept it, then cancel
it.  The final ride is cancelled but still carries the driver id, so a driver
is assigned while the status is in neither confirmed nor completed: the
two-sided equivalence of the claim fails. -/
theorem driver_assignment_counterexample :
    ¬ driverIffInv (applyOp (applyOp (applyOp dbRide0 (.createRide 1 10))
      (.acceptRideOp 1 50)) (.cancelRideOp 1 1 10)) := by
  intro h
  have h2 := h ⟨1, 1, some 1, some 5, .cancelled⟩ (by decide)
  rcases h2.mp (by decide) with h3 | h3 <;> cases h3

/-- What itinerary deletion leaves behind: no itinerary row with the deleted
id and owner, and no room or schedule item of the deleted itinerary. -/
theorem delete_success_props (db : DB) (iid cidv : Nat) :
    (∀ i ∈ db.itineraries.filter (fun i => ¬ (i.id == iid && i.customerId == cidv)),
      ¬ (i.id = iid ∧ i.customerId = cidv)) ∧
    (∀ it ∈ db.roomItems.filter (fun x => ¬ x.itineraryId == iid), it.itineraryId ≠ iid) ∧
    (∀ s ∈ db.scheduleItems.filter (fun x => ¬ x.itineraryId == iid), s.itineraryId ≠ iid) := by
  refine ⟨?_, ?_, ?_⟩
  · intro x hx hand
    have h2 := (List.mem_filter.mp hx).2
    simp at h2
    rcases h2 with h2 | h2
    · exact h2 hand.1
    · exact h2 hand.2
  · intro x hx
    have h2 := (List.mem_filter.mp hx).2
    simpa using h2
  · intro x hx
    have h2 := (List.mem_filter.mp hx).2
    simpa using h2

/-- C9: deletion of an owned itinerary looks only at THE FIRST ride booking
linked to it; it is rejected (conflict) exactly when that first linked ride
is completed or confirmed, leaving everything unchanged, and otherwise
deletes the itinerary together with its room items and schedule items (rides
and bookings untouched) even when a later linked ride is confirmed. -/
theorem delete_itinerary_claim (db : DB) (iid user_id : Nat) (c : Customer) (itin : Itinerary)
    (hc : db.customers.find? (fun x => x.userId == user_id) = some c)
    (hi : db.itineraries.find? (fun x => x.id == iid && x.customerId == c.id) = some itin) :
    (∀ r, db.rides.find? (fun x => x.itineraryId == some iid) = some r →
      (r.status = .completed ∨ r.status = .confirmed) →
      delete_itinerary db iid user_id = .err .conflictItinerary ∧
      applyOp db (.deleteItin iid user_id) = db) ∧
    (∀ r, db.rides.find? (fun x => x.itineraryId == some iid) = some r →
      ¬ (r.status = .completed ∨ r.status = .confirmed) →
      ∃ db2, delete_itinerary db iid user_id = .ok db2 ∧
        (∀ i ∈ db2.itineraries, ¬ (i.id = iid ∧ i.customerId = c.id)) ∧
        (∀ it ∈ db2.roomItems, it.itineraryId ≠ iid) ∧
        (∀ s ∈ db2.scheduleItems, s.itineraryId ≠ iid) ∧
        db2.rides = db.rides ∧ db2.bookings = db.bookings) ∧
    (db.rides.find? (fun x => x.itineraryId == some iid) = none →
      ∃ db2, delete_itinerary db iid user_id = .ok db2 ∧
        (∀ i ∈ db2.itineraries, ¬ (i.id = iid ∧ i.customerId = c.id)) ∧
        (∀ it ∈ db2.roomItems, it.itineraryId ≠ iid) ∧
        (∀ s ∈ db2.scheduleItems, s.itineraryId ≠ iid) ∧
        db2.rides = db.rides ∧ db2.bookings = db.bookings) := by
  obtain ⟨hp1, hp2, hp3⟩ := delete_success_props db iid c.id
  refine ⟨?_, ?_, ?_⟩
  · intro r hr hterm
    constructor
    · simp only [delete_itinerary, hc, hi, hr]
      rw [if_pos hterm]
    · simp only [applyOp, runOp, delete_itinerary, hc, hi, hr]
      rw [if_pos hterm]
  · intro r hr hterm
    have hok : delete_itinerary db iid user_id = .ok { db with
        scheduleItems := db.scheduleItems.filter (fun x => ¬ x.itineraryId == iid),
        roomItems := db.roomItems.filter (fun x => ¬ x.itineraryId == iid),
        itineraries := db.itineraries.filter (fun i => ¬ (i.id == iid && i.customerId == c.id)) } := by
      simp only [delete_itinerary, hc, hi, hr]
      rw [if_neg hterm]
    exact ⟨_, hok, hp1, hp2, hp3, rfl, rfl⟩
  · intro hr
    have hok : delete_itinerary db iid user_id = .ok { db with
        scheduleItems := db.scheduleItems.filter (fun x => ¬ x.itineraryId == iid),
        roomItems := db.roomItems.filter (fun x => ¬ x.itineraryId == iid),
        itineraries := db.itineraries.filter (fun i => ¬ (i.id == iid && i.customerId == c.id)) } := by
      simp only [delete_itinerary, hc, hi, hr]
    exact ⟨_, hok, hp1, hp2, hp3, rfl, rfl⟩

/-- Witness for C9: deleting itinerary 1 of dbTwoRides succeeds (its first
linked ride is cancelled) and removes its room items. -/
theorem delete_itinerary_claim_witness :
    ∃ db2, delete_itinerary dbTwoRides 1 10 = .ok db2 ∧
      ∀ it ∈ db2.roomItems, it.itineraryId ≠ 1 := by
  obtain ⟨db2, h1, _, h3, _, _, _⟩ :=
    (delete_itinerary_claim dbTwoRides 1 10 ⟨1, 10⟩ ⟨1, 1⟩ (by decide) (by decide)).2.1
      ⟨1, 1, some 1, none, .cancelled⟩ (by decide) (by decide)
  exact ⟨db2, h1, h3⟩

/-- C9, counterexample: dbTwoRides links a cancelled ride first and a
confirmed ride second to itinerary 1.  The claim requires a conflict
rejection because a linked request is confirmed, but the handler inspects
only the first linked ride and deletes the itinerary. -/
theorem delete_itinerary_counterexample :
    (∃ r ∈ dbTwoRides.rides, r.itineraryId = some 1 ∧ r.status = .confirmed) ∧
    ∃ db2, delete_itinerary dbTwoRides 1 10 = .ok db2 ∧
      ∀ i ∈ db2.itineraries, i.id ≠ 1 := by
  constructor
  · exact ⟨⟨2, 1, some 1, some 5, .confirmed⟩, by decide, rfl, rfl⟩
  · exact ⟨_, rfl, by decide⟩

/-- C10: the dashboard cancellation endpoint, beyond requiring the booking
to exist and belong to the requesting customer, rejects a booking whose stay
already ended (endDate before the current time) with the
cannot-cancel-completed-booking error and, failing that, rejects a booking
whose check-in is less than one day (24 hours) away with the
cancellation-window error; in both cases nothing is deleted or unlinked. -/
theorem cancel_window_claim (db : DB) (booking_id user_id : Nat) (now : Int)
    (c : Customer) (b : RoomBooking)
    (hc : db.customers.find? (fun x => x.userId == user_id) = some c)
    (hb : db.bookings.find? (fun x => x.id == booking_id && x.customerId == c.id) = some b) :
    (b.endDate < now →
      cancel_customer_booking db booking_id user_id now = .err .completedBooking ∧
      applyOp db (.cancelCustomer booking_id user_id now) = db) ∧
    (¬ b.endDate < now → b.startDate - now < 1 →
      cancel_customer_booking db booking_id user_id now = .err .cancelWindow ∧
      applyOp db (.cancelCustomer booking_id user_id now) = db) := by
  constructor
  · intro hend
    constructor
    · simp only [cancel_customer_booking, hc, hb]
      rw [if_pos hend]
    · simp only [applyOp, runOp, cancel_customer_booking, hc, hb]
      rw [if_pos hend]
  · intro hend hstart
    constructor
    · simp only [cancel_customer_booking, hc, hb]
      rw [if_neg hend, if_pos hstart]
    · simp only [applyOp, runOp, cancel_customer_booking, hc, hb]
      rw [if_neg hend, if_pos hstart]

/-- Witness for C10: in dbFuture (stay over days [30, 32)) at time 30,
check-in is less than one day away and cancellation is rejected with the
window error. -/
theorem cancel_window_claim_witness :
    cancel_customer_booking dbFuture 1 10 30 = .err .cancelWindow ∧
    cancel_customer_booking dbFuture 1 10 40 = .err .completedBooking := by
  constructor
  · exact ((cancel_window_claim dbFuture 1 10 30 ⟨1, 10⟩ ⟨1, 1, 1, 30, 32, 2⟩
      (by decide) (by decide)).2 (by decide) (by decide)).1
  · exact ((cancel_window_claim dbFuture 1 10 40 ⟨1, 10⟩ ⟨1, 1, 1, 30, 32, 2⟩
      (by decide) (by decide)).1 (by decide)).1

end TravelBackend
